import Mathlib

/-!
Verification development for the rich-text migration proof of concept.

The repository contains two migration scripts that convert parsed HTML
node trees into the constrained rich-text markup dialect of a content
storage system:

* `transformNodeToMapiRichText` together with `serializeKnownAttributes`
  and `allowedRichTextElementAttributes` (the two-step upload variant:
  fetch bytes, upload the binary file, register the asset, with a local
  try/catch fallback to a placeholder marker), and
* the `transformers` map of `0-add-rich-text-content.ts` (the
  one-call `uploadAssetFromUrl` variant, rejecting on a missing `src`
  attribute).

The node model, the JavaScript string/truthiness idioms the code relies
on, and both transformers are embedded below.  The traversal engines
(`traverseAndTransformNodesAsync`, `nodesToHTMLAsync`) live in the
external `rich-text-resolver` package; they are modelled from the
specification where a claim needs them.
-/

/-- The parsed markup tree: a text leaf owning its content, or an element
with a tag name, an ordered attribute mapping (JavaScript object entries:
each key present at most once, its value a string or `undefined`,
modelled as `Option String`), and an ordered list of children. -/
inductive DomNode where
  | text (content : String)
  | element (tagName : String) (attributes : List (String × Option String))
      (children : List DomNode)

/-- JavaScript property access `attributes[key]`: the value of the first
entry with that key, `undefined` (`none`) when the key is missing or its
stored value is `undefined`. -/
def getAttr (attributes : List (String × Option String)) (key : String) :
    Option String :=
  ((attributes.find? (fun p => p.1 == key)).map (fun p => p.2)).join

/-- JavaScript truthiness of a `string | undefined` value: `undefined`
and the empty string are falsy, every other string is truthy. -/
def jsTruthy : Option String → Bool
  | none => false
  | some s => !(s == "")

/-- The JavaScript expression `x || d` for `x : string | undefined`:
yields `d` when `x` is falsy (absent or empty), otherwise the string. -/
def jsOr (x : Option String) (d : String) : String :=
  match x with
  | none => d
  | some s => if s == "" then d else s

/-- Template-literal interpolation of a `string | undefined` value:
`undefined` prints as the text `undefined`. -/
def jsToString : Option String → String
  | none => "undefined"
  | some s => s

/-- `Array.prototype.join(sep)`: empty array gives the empty string,
otherwise the elements interleaved with the separator. -/
def jsJoin (sep : String) : List String → String
  | [] => ""
  | [x] => x
  | x :: y :: xs => x ++ sep ++ jsJoin sep (y :: xs)

/-- The chunks of a character list between occurrences of a separator
character, empty chunks kept. -/
def splitChars (c : Char) : List Char → List (List Char)
  | [] => [[]]
  | x :: xs =>
    match splitChars c xs with
    | [] => [[]]
    | y :: ys => if x == c then [] :: y :: ys else (x :: y) :: ys

/-- `String.prototype.split(sep)` for the single-character separator both
migrations use (`src.split("/")`): the maximal chunks between separator
occurrences, empty chunks kept, and `[""]` for the empty string — as in
JavaScript. -/
def jsSplit (s : String) (sep : Char) : List String :=
  (splitChars sep s.data).map String.mk

/-- `Array.prototype.pop()` viewed as a value: the last element, or
`undefined` for an empty array. -/
def jsPop (xs : List String) : Option String :=
  xs.getLast?

/-- The fixed allow-list `allowedRichTextElementAttributes` exactly as it
appears in the source, including the duplicated `"data-id"` entry. -/
def allowedRichTextElementAttributes : List String :=
  [ "data-item-id"
  , "data-item-external-id"
  , "data-item-codename"
  , "data-asset-id"
  , "data-asset-external-id"
  , "data-asset-codename"
  , "data-new-window"
  , "title"
  , "target"
  , "href"
  , "data-image-id"
  , "data-rel"
  , "data-type"
  , "data-codename"
  , "data-id"
  , "data-external-id"
  , "src"
  , "type"
  , "data-id"
  , "data-email-address"
  , "data-email-subject"
  , "data-phone-number"
  ]

/-- The filter stage of `serializeKnownAttributes`:
`Object.entries(attributes).filter(([key]) => allowedRichTextElementAttributes.includes(key))`. -/
def filterKnownAttributes (attributes : List (String × Option String)) :
    List (String × Option String) :=
  attributes.filter (fun p => allowedRichTextElementAttributes.contains p.1)

/-- `serializeKnownAttributes`: filter the entries by the allow-list, map
each surviving entry to a `key="value"` token (template-literal
stringification of the value), and join the tokens with single spaces. -/
def serializeKnownAttributes (attributes : List (String × Option String)) :
    String :=
  jsJoin " "
    ((filterKnownAttributes attributes).map
      (fun p => p.1 ++ "=\"" ++ jsToString p.2 ++ "\""))

/-- The allow-list exactly as the specification enumerates it: twenty-one
distinct attribute names, `data-id` listed once. -/
def claimAllowedAttributeNames : List String :=
  [ "data-item-id"
  , "data-item-external-id"
  , "data-item-codename"
  , "data-asset-id"
  , "data-asset-external-id"
  , "data-asset-codename"
  , "data-new-window"
  , "title"
  , "target"
  , "href"
  , "data-image-id"
  , "data-rel"
  , "data-type"
  , "data-codename"
  , "data-id"
  , "data-external-id"
  , "src"
  , "type"
  , "data-email-address"
  , "data-email-subject"
  , "data-phone-number"
  ]

/-- The attribute filter as the specification words it: keep exactly the
entries whose key is among the twenty-one recognized names, serialize each
as a `key="value"` token, join the tokens with single spaces, original
relative order preserved. -/
def serializeKnownAttributesSpec (attributes : List (String × String)) :
    String :=
  jsJoin " "
    ((attributes.filter (fun p => claimAllowedAttributeNames.contains p.1)).map
      (fun p => p.1 ++ "=\"" ++ p.2 ++ "\""))

/-- Membership in the source allow-list and in the specification's
allow-list agree for every string: the source list only repeats
`data-id`. -/
theorem allowed_names_agree (k : String) :
    allowedRichTextElementAttributes.contains k
      = claimAllowedAttributeNames.contains k := by
  have h : k ∈ allowedRichTextElementAttributes
      ↔ k ∈ claimAllowedAttributeNames := by
    simp only [allowedRichTextElementAttributes, claimAllowedAttributeNames,
      List.mem_cons, List.not_mem_nil, or_false]
    tauto
  simp only [List.contains, List.elem_eq_mem]
  exact decide_eq_decide.mpr h

/-- C5: the attribute filter is total and returns exactly the entries
whose key is among the twenty-one recognized attribute names, serialized
as key="value" tokens joined by single spaces, surviving entries in their
original relative order, every other key silently dropped.  Stated as a
refinement: on every fully-valued attribute mapping the source function
agrees with the function written from the specification's own words
(totality is inherent: both are plain functions). -/
theorem serializeKnownAttributes_matches_spec (attrs : List (String × String)) :
    serializeKnownAttributes (attrs.map (fun p => (p.1, some p.2)))
      = serializeKnownAttributesSpec attrs := by
  have hlist :
      (filterKnownAttributes (attrs.map (fun p => (p.1, some p.2)))).map
          (fun p => p.1 ++ "=\"" ++ jsToString p.2 ++ "\"")
        = ((attrs.filter
              (fun p => claimAllowedAttributeNames.contains p.1)).map
            (fun p => p.1 ++ "=\"" ++ p.2 ++ "\"")) := by
    induction attrs with
    | nil => rfl
    | cons p ps ih =>
      simp only [List.map_cons, filterKnownAttributes, List.filter_cons] at *
      rw [allowed_names_agree]
      cases hk : claimAllowedAttributeNames.contains p.1 with
      | false => simpa [hk] using ih
      | true => simpa [hk, jsToString] using ih
  unfold serializeKnownAttributes serializeKnownAttributesSpec
  rw [hlist]

/-- C7: the attribute filter is idempotent — restricting a mapping that is
already restricted to allow-listed keys changes nothing, and serializing
an already-filtered mapping gives the same string as serializing the
original mapping once; no attribute names are ever re-added. -/
theorem attribute_filter_idempotent (attrs : List (String × Option String)) :
    filterKnownAttributes (filterKnownAttributes attrs)
        = filterKnownAttributes attrs
    ∧ serializeKnownAttributes (filterKnownAttributes attrs)
        = serializeKnownAttributes attrs := by
  have h : filterKnownAttributes (filterKnownAttributes attrs)
      = filterKnownAttributes attrs := by
    unfold filterKnownAttributes
    rw [List.filter_filter]
    simp
  refine ⟨h, ?_⟩
  unfold serializeKnownAttributes
  rw [h]

/-- C4 counterexample: an entry whose key is allow-listed but whose value
is absent is not omitted — `Object.entries` still yields the entry and the
template literal stringifies `undefined`, so the mapping with the single
entry `title ↦ undefined` serializes to `title="undefined"`, not to the
empty string the claim requires. -/
theorem absent_value_not_omitted_cex :
    serializeKnownAttributes [("title", none)] = "title=\"undefined\""
      ∧ ¬ serializeKnownAttributes [("title", none)] = "" := by
  constructor
  · decide
  · decide

/-- C4 amended: entries whose value is absent are not omitted; when their
key is on the allow-list they are serialized with the literal text
`undefined` as their value. -/
theorem absent_value_serialized_as_undefined (k : String)
    (h : allowedRichTextElementAttributes.contains k = true) :
    serializeKnownAttributes [(k, none)] = k ++ "=\"undefined\"" := by
  have hm : k ∈ allowedRichTextElementAttributes := by
    simpa [List.contains, List.elem_eq_mem] using h
  simp only [serializeKnownAttributes, filterKnownAttributes, List.filter_cons,
    hm, jsToString, jsJoin, List.contains, List.elem_eq_mem, decide_eq_true_eq,
    if_pos, List.filter_nil, List.map_cons, List.map_nil]
  rw [String.append_assoc, String.append_assoc]
  congr 1

/-- Witness for the amended C4 at the concrete allow-listed key `title`. -/
theorem absent_value_serialized_as_undefined_witness :
    allowedRichTextElementAttributes.contains "title" = true
      ∧ serializeKnownAttributes [("title", none)] = "title" ++ "=\"undefined\"" :=
  ⟨by decide, absent_value_serialized_as_undefined "title" (by decide)⟩

/-- The part of an `axios.get(..., responseType: "arraybuffer")` response
the transformer reads: the byte array and the `content-type` response
header (absent headers read as `undefined`). -/
structure FetchResponse where
  data : List Nat
  contentType : Option String

/-- The payload of `uploadBinaryFile().withData({...})`: exactly the four
fields the source builds from the fetched response. -/
structure BinaryFileRequest where
  binaryData : List Nat
  contentLength : Nat
  contentType : String
  filename : String
deriving DecidableEq

/-- The payload of `addAsset().withData(...)` as far as the source fills
it: the file reference identifier from the upload step, the title (the
derived filename) and the fixed description text. -/
structure AssetRequest where
  fileReferenceId : String
  title : String
  description : String
deriving DecidableEq

/-- The effectful collaborators of `transformNodeToMapiRichText`, each
call either returning a value or failing: `axios.get` on a URL, the
platform `new URL(u).pathname` parser (which throws on an invalid URL),
and the two management-client calls.  The upload and asset calls return
the identifier found at `.data.id` of their responses. -/
structure Env000 where
  fetch : String → Except String FetchResponse
  urlPathname : String → Except String String
  uploadBinaryFile : BinaryFileRequest → Except String String
  addAsset : AssetRequest → Except String String

/-- The `withData` payload of the binary upload, built from the fetched
response and the parsed URL pathname exactly as the source does:
`binaryData: data`, `contentLength: data.byteLength`,
`contentType: contentType || "application/octet-stream"`, and
`filename: new URL(src).pathname.split("/").pop() || "unknown-file"`. -/
def uploadBinaryRequestFor (resp : FetchResponse) (pathname : String) :
    BinaryFileRequest :=
  { binaryData := resp.data
  , contentLength := resp.data.length
  , contentType := jsOr resp.contentType "application/octet-stream"
  , filename := jsOr (jsPop (jsSplit pathname '/')) "unknown-file"
  }

/-- The body of the `try` block of the img branch of
`transformNodeToMapiRichText`: fetch the bytes at the `src` URL, derive
content type and filename, upload the binary file, register the asset
referencing the upload identifier, and produce the figure marker
embedding the asset identifier.  Any failure of the four effectful steps
propagates out of this pipeline (to be caught by the transformer). -/
def imgTry (env : Env000) (src : String) : Except String String := do
  let resp ← env.fetch src
  let pathname ← env.urlPathname src
  let req := uploadBinaryRequestFor resp pathname
  let uploadId ← env.uploadBinaryFile req
  let assetId ← env.addAsset
    { fileReferenceId := uploadId
    , title := req.filename
    , description := "Auto-generated asset"
    }
  pure ("<figure data-asset-id=\"" ++ assetId ++ "\"></figure>")

/-- `transformNodeToMapiRichText`: text nodes return their content; an
img element with a truthy `src` runs the upload pipeline and catches any
failure locally, falling back to `<img/>` (built as `<` ++ tagName ++
`/>`) while reporting the error to the observability channel (the second
component collects the `console.error` reports); every other element —
including an img whose `src` is absent or empty — re-emits its tag with
the filtered attributes around the join of its already-processed
children.  The function is total: it never fails. -/
def transformNodeToMapiRichText (env : Env000) (node : DomNode)
    (processedItems : List String) : List String × List String :=
  match node with
  | .text c => ([c], [])
  | .element tagName attributes _ =>
    if tagName == "img" && jsTruthy (getAttr attributes "src") then
      match imgTry env (jsToString (getAttr attributes "src")) with
      | .ok s => ([s], [])
      | .error e => (["<" ++ tagName ++ "/>"], [e])
    else
      let innerHtml := jsJoin "" processedItems
      ([ "<" ++ tagName ++ " " ++ serializeKnownAttributes attributes ++ ">"
          ++ innerHtml ++ "</" ++ tagName ++ ">" ], [])

mutual

/-- Modelled from the spec: `traverseAndTransformNodesAsync` of the
external rich-text-resolver package, the recursive async tree walker of
section 4.1 — children are resolved first and joined in original document
order, then the node's transformer is invoked with the node and the
already-processed child results; sibling results are accumulated in
document order.  Instantiated with the total transformer
`transformNodeToMapiRichText`, so the walk returns a value (it cannot
reject); the second component accumulates the observability reports. -/
def traverseAndTransformNode (env : Env000) : DomNode →
    List String × List String
  | .text c =>
    let (out, reports) := transformNodeToMapiRichText env (.text c) []
    (out, reports)
  | .element tagName attributes children =>
    let (items, childReports) := traverseAndTransformNodes env children
    let (out, reports) :=
      transformNodeToMapiRichText env (.element tagName attributes children)
        items
    (out, childReports ++ reports)

/-- Modelled from the spec: the traversal of a sequence of sibling nodes —
each sibling's results and reports are accumulated in original document
order. -/
def traverseAndTransformNodes (env : Env000) : List DomNode →
    List String × List String
  | [] => ([], [])
  | n :: ns =>
    let (out, reports) := traverseAndTransformNode env n
    let (outs, moreReports) := traverseAndTransformNodes env ns
    (out ++ outs, reports ++ moreReports)

end

/-- Structural induction over the node tree, with a motive for nodes and
one for child lists. -/
theorem domNode_ind {P : DomNode → Prop} {Q : List DomNode → Prop}
    (htext : ∀ c, P (.text c))
    (helem : ∀ t a cs, Q cs → P (.element t a cs))
    (hnil : Q [])
    (hcons : ∀ n ns, P n → Q ns → Q (n :: ns)) :
    ∀ n, P n :=
  fun n => DomNode.rec htext helem hnil hcons n

/-- Structural induction over lists of nodes, derived from `domNode_ind`. -/
theorem domNodeList_ind {P : DomNode → Prop} {Q : List DomNode → Prop}
    (htext : ∀ c, P (.text c))
    (helem : ∀ t a cs, Q cs → P (.element t a cs))
    (hnil : Q [])
    (hcons : ∀ n ns, P n → Q ns → Q (n :: ns)) :
    ∀ ns, Q ns :=
  fun ns =>
    List.rec hnil
      (fun n ns ih => hcons n ns (domNode_ind htext helem hnil hcons n) ih) ns

/-- The traversal of a concatenation of sibling sequences is the
concatenation of the traversals: outputs and reports both accumulate in
document order. -/
theorem traverseAndTransformNodes_append (env : Env000)
    (xs ys : List DomNode) :
    traverseAndTransformNodes env (xs ++ ys)
      = ((traverseAndTransformNodes env xs).1
            ++ (traverseAndTransformNodes env ys).1,
         (traverseAndTransformNodes env xs).2
            ++ (traverseAndTransformNodes env ys).2) := by
  induction xs with
  | nil => simp [traverseAndTransformNodes]
  | cons n ns ih => simp [traverseAndTransformNodes, ih]

/-- A failure environment for witnesses: the byte fetch fails, nothing
else does. -/
def envFetchFails : Env000 :=
  { fetch := fun _ => .error "network down"
  , urlPathname := fun _ => .ok "/y/pic.png"
  , uploadBinaryFile := fun _ => .ok "upload-id"
  , addAsset := fun _ => .ok "asset-id"
  }

/-- C1: for an img element whose `src` attribute is present (truthy), if
the guarded pipeline — fetching the bytes or either storage-client call —
fails, the transformer catches locally and the node's contribution is the
minimal placeholder marker `<img/>` with no children and no attributes,
the error is reported to the observability channel (it appears among the
collected `console.error` reports) and is never raised (the traversal is
a total function), and the enclosing traversal still produces the rest of
the document intact around the placeholder. -/
theorem img_failure_falls_back_to_placeholder (env : Env000)
    (attributes : List (String × Option String)) (children : List DomNode)
    (u e : String)
    (hsrc : getAttr attributes "src" = some u) (hne : ¬ u = "")
    (hfail : imgTry env u = .error e) :
    (traverseAndTransformNode env (.element "img" attributes children)).1
        = ["<img/>"]
    ∧ e ∈ (traverseAndTransformNode env (.element "img" attributes children)).2
    ∧ ∀ before after,
        (traverseAndTransformNodes env
            (before ++ .element "img" attributes children :: after)).1
          = (traverseAndTransformNodes env before).1 ++ ["<img/>"]
            ++ (traverseAndTransformNodes env after).1 := by
  have htrans : ∀ items,
      transformNodeToMapiRichText env (.element "img" attributes children) items
        = (["<img/>"], [e]) := by
    intro items
    simp [transformNodeToMapiRichText, hsrc, jsTruthy, jsToString, hne, hfail]
  have hnode : traverseAndTransformNode env (.element "img" attributes children)
      = (["<img/>"],
         (traverseAndTransformNodes env children).2 ++ [e]) := by
    simp [traverseAndTransformNode, htrans]
  refine ⟨by rw [hnode],
    by rw [hnode]; exact List.mem_append_right _ (List.mem_singleton_self e), ?_⟩
  intro before after
  rw [traverseAndTransformNodes_append]
  have hcons : traverseAndTransformNodes env
      (DomNode.element "img" attributes children :: after)
      = (["<img/>"] ++ (traverseAndTransformNodes env after).1,
         ((traverseAndTransformNodes env children).2 ++ [e])
            ++ (traverseAndTransformNodes env after).2) := by
    simp [traverseAndTransformNodes, hnode]
  rw [hcons]
  simp [List.append_assoc]

/-- Witness for C1: a three-sibling fragment whose middle img node hits a
failing fetch resolves to the placeholder between its intact siblings. -/
theorem img_failure_falls_back_to_placeholder_witness :
    imgTry envFetchFails "http://x/y/pic.png" = .error "network down"
    ∧ (traverseAndTransformNodes envFetchFails
        ([DomNode.text "A"]
          ++ DomNode.element "img" [("src", some "http://x/y/pic.png")] []
              :: [DomNode.text "B"])).1
      = ["A"] ++ ["<img/>"] ++ ["B"] := by
  have h := (img_failure_falls_back_to_placeholder envFetchFails
      [("src", some "http://x/y/pic.png")] [] "http://x/y/pic.png"
      "network down" rfl (by decide) rfl).2.2 [DomNode.text "A"]
      [DomNode.text "B"]
  exact ⟨rfl, h⟩

mutual

/-- The exact markup text a node tree stands for, written from the
specification's round-trip examples: a text node is its content, an
element is its tag with each attribute rendered as a space followed by
`key="value"`, the children in order, and the closing tag — with no
extra whitespace anywhere. -/
def canonicalHtml : DomNode → String
  | .text c => c
  | .element tagName attributes children =>
    "<" ++ tagName
      ++ jsJoin ""
          (attributes.map
            (fun p => " " ++ (p.1 ++ "=\"" ++ p.2.getD "" ++ "\"")))
      ++ ">" ++ canonicalHtmlList children ++ "</" ++ tagName ++ ">"

/-- The exact markup text of a sequence of sibling nodes, in order. -/
def canonicalHtmlList : List DomNode → String
  | [] => ""
  | n :: ns => canonicalHtml n ++ canonicalHtmlList ns

end

mutual

/-- The scope of the amended round-trip claim: every element in the tree
has a tag other than img (so no transformer is registered for it), at
least one attribute, and only allow-listed attributes with present
values. -/
def roundTrippable : DomNode → Bool
  | .text _ => true
  | .element tagName attributes children =>
    !(tagName == "img") && !attributes.isEmpty
      && attributes.all
          (fun p => allowedRichTextElementAttributes.contains p.1
            && p.2.isSome)
      && roundTrippableList children

/-- `roundTrippable` at every node of a sibling sequence. -/
def roundTrippableList : List DomNode → Bool
  | [] => true
  | n :: ns => roundTrippable n && roundTrippableList ns

end

/-- Concatenating sibling markups is the same as joining them with the
empty separator. -/
theorem canonicalHtmlList_eq_join (ns : List DomNode) :
    canonicalHtmlList ns = jsJoin "" (ns.map canonicalHtml) := by
  induction ns with
  | nil => rfl
  | cons n ms ih =>
    cases ms with
    | nil => simp [canonicalHtmlList, jsJoin, String.append_empty]
    | cons m ms' =>
      simp only [canonicalHtmlList, List.map_cons, jsJoin] at *
      rw [ih, String.append_assoc]
      simp [String.append_assoc]

/-- Prepending the separator to a space-joined non-empty token list is
the same as prefixing every token with a space and concatenating. -/
theorem space_join (x : String) (xs : List String) :
    " " ++ jsJoin " " (x :: xs)
      = jsJoin "" ((x :: xs).map (fun s => " " ++ s)) := by
  induction xs generalizing x with
  | nil => rfl
  | cons y ys ih =>
    simp only [jsJoin, List.map_cons] at *
    rw [show x ++ " " ++ jsJoin " " (y :: ys)
        = x ++ (" " ++ jsJoin " " (y :: ys)) from by
      rw [String.append_assoc]]
    rw [ih y]
    simp [String.append_assoc]

/-- C6 counterexample: for an element with zero attributes the default
branch still inserts a space after the tag name, so `<span>hi</span>`
(an element that carries only allow-listed attributes, vacuously, and has
no registered transformer) transforms to `<span >hi</span>`, not to
itself — the claimed exact round-trip fails at zero attributes. -/
theorem default_round_trip_cex :
    (traverseAndTransformNode envFetchFails
        (.element "span" [] [.text "hi"])).1 = ["<span >hi</span>"]
    ∧ canonicalHtml (.element "span" [] [.text "hi"]) = "<span>hi</span>"
    ∧ ¬ ("<span >hi</span>" = "<span>hi</span>") := by
  refine ⟨rfl, rfl, by decide⟩

/-- C6 amended: the default transformer re-emits the node exactly — so
output nesting mirrors input nesting and `<span title="x">hi</span>`
round-trips to itself — for every element whose subtree contains only
elements with a tag other than img, at least one attribute, and only
allow-listed attributes with present values; with zero attributes the
output carries one extra space after the tag name. -/
theorem default_transformer_round_trip (env : Env000) (n : DomNode)
    (h : roundTrippable n = true) :
    traverseAndTransformNode env n = ([canonicalHtml n], []) := by
  refine domNode_ind (P := fun m => roundTrippable m = true →
      traverseAndTransformNode env m = ([canonicalHtml m], []))
    (Q := fun ms => roundTrippableList ms = true →
      traverseAndTransformNodes env ms = (ms.map canonicalHtml, []))
    ?_ ?_ ?_ ?_ n h
  · intro c _
    simp [traverseAndTransformNode, transformNodeToMapiRichText, canonicalHtml]
  · intro t a cs ihQ hgood
    simp only [roundTrippable, Bool.and_eq_true, Bool.not_eq_true'] at hgood
    obtain ⟨⟨⟨himg, hne⟩, hall⟩, hcs⟩ := hgood
    have hanil : a ≠ [] := by
      intro hnil
      rw [hnil] at hne
      simp [List.isEmpty] at hne
    have hmem : ∀ p ∈ a,
        allowedRichTextElementAttributes.contains p.1 = true
          ∧ p.2.isSome = true := by
      intro p hp
      have := (List.all_eq_true.1 hall) p hp
      simpa [Bool.and_eq_true] using this
    have hfilter : filterKnownAttributes a = a :=
      List.filter_eq_self.mpr (fun p hp => (hmem p hp).1)
    have htok : a.map (fun p => p.1 ++ "=\"" ++ jsToString p.2 ++ "\"")
        = a.map (fun p => p.1 ++ "=\"" ++ p.2.getD "" ++ "\"") := by
      refine List.map_congr_left (fun p hp => ?_)
      obtain ⟨v, hv⟩ := Option.isSome_iff_exists.1 (hmem p hp).2
      rw [hv]
      rfl
    obtain ⟨x, xs, rfl⟩ := List.exists_cons_of_ne_nil hanil
    have hA : " " ++ serializeKnownAttributes (x :: xs)
        = jsJoin ""
            ((x :: xs).map
              (fun p => " " ++ (p.1 ++ "=\"" ++ p.2.getD "" ++ "\""))) := by
      unfold serializeKnownAttributes
      rw [hfilter, htok]
      rw [List.map_cons]
      rw [space_join]
      rw [← List.map_cons (fun p => p.1 ++ "=\"" ++ p.2.getD "" ++ "\"") x xs]
      rw [List.map_map]
      rfl
    have hstep : traverseAndTransformNodes env cs = (cs.map canonicalHtml, []) :=
      ihQ hcs
    simp only [traverseAndTransformNode, hstep]
    simp only [transformNodeToMapiRichText, himg, Bool.false_and,
      Bool.false_eq_true, if_false, List.append_nil]
    refine Prod.ext ?_ rfl
    simp only [canonicalHtml]
    rw [← canonicalHtmlList_eq_join]
    refine congrArg (fun s => [s]) ?_
    simp only [String.append_assoc] at hA ⊢
    rw [← String.append_assoc " " (serializeKnownAttributes (x :: xs)), hA]
  · intro _
    rfl
  · intro m ms ihP ihQ hgood
    simp only [roundTrippableList, Bool.and_eq_true] at hgood
    simp [traverseAndTransformNodes, ihP hgood.1, ihQ hgood.2]

/-- Witness for the amended C6: the specification's own example
`<span title="x">hi</span>` round-trips exactly. -/
theorem default_transformer_round_trip_witness :
    roundTrippable
        (.element "span" [("title", some "x")] [.text "hi"]) = true
    ∧ traverseAndTransformNode envFetchFails
        (.element "span" [("title", some "x")] [.text "hi"])
      = (["<span title=\"x\">hi</span>"], []) := by
  refine ⟨by decide, ?_⟩
  have h := default_transformer_round_trip envFetchFails
    (.element "span" [("title", some "x")] [.text "hi"]) (by decide)
  rw [h]
  rfl

/-- The payload of `uploadAssetFromUrl().withData({...})` as far as the
newer migration fills it: the binary file name, the source URL, the asset
title, and the description text (the remaining optional fields are left
undefined by the source). -/
structure UploadAssetFromUrlRequest where
  filename : String
  fileUrl : String
  title : String
  description : String
deriving DecidableEq

/-- The management client as the newer migration uses it: a single
upload-asset-from-URL call that either returns the created asset's
identifier (`res.data.id`) or fails. -/
structure MapiClient where
  uploadAssetFromUrl : UploadAssetFromUrlRequest → Except String String

/-- The `withData` payload of `uploadAssetFromUrl`, built exactly as the
source does: `fileName = src.split("/").pop() || "untitled_file"` is used
both as the binary file name and the asset title, the file URL is the
`src` attribute, and the description is `node.attributes.alt` with the
fallback text `No description`. -/
def uploadAssetRequestFor (attributes : List (String × Option String))
    (src : String) : UploadAssetFromUrlRequest :=
  let fileName := jsOr (jsPop (jsSplit src '/')) "untitled_file"
  { filename := fileName
  , fileUrl := src
  , title := fileName
  , description := jsOr (getAttr attributes "alt") "No description"
  }

/-- The `i` transformer of the newer migration's `transformers` map:
`async (_, children) => ...` — the node argument is ignored entirely and
the already-resolved children string is wrapped in an em tag. -/
def transformersI (_node : DomNode) (children : String) :
    Except String String :=
  .ok ("<em>" ++ children ++ "</em>")

/-- The `img` transformer of the newer migration's `transformers` map:
reject when no client is provided; reject with the message
`Invalid IMG tag: no src attribute.` when the `src` attribute is falsy;
otherwise upload the asset from the URL and resolve to the figure marker
embedding the returned asset identifier — an upload failure rejects the
promise (the later `resolve` call is a no-op on an already-rejected
promise). -/
def transformersImg (attributes : List (String × Option String))
    (_children : String) (client : Option MapiClient) :
    Except String String :=
  match client with
  | none => .error "Client is not provided"
  | some c =>
    let src := getAttr attributes "src"
    if !(jsTruthy src) then .error "Invalid IMG tag: no src attribute."
    else
      match c.uploadAssetFromUrl
          (uploadAssetRequestFor attributes (jsToString src)) with
      | .error e => .error e
      | .ok assetId =>
        .ok ("<figure data-asset-id=\"" ++ assetId ++ "\"></figure>")

mutual

/-- Modelled from the spec: the node walk of `nodesToHTMLAsync` of the
external rich-text-resolver package — a text node yields its content;
for an element the children are resolved and joined first, then the
transformer registered for the exact tag name is invoked with the node,
the joined children string and the context, the default transformer
(re-emit the tag around the children) applying when no entry exists; the
engine itself never catches a transformer failure, so a rejection
propagates and aborts the traversal. -/
def nodeToHTML (client : Option MapiClient) : DomNode →
    Except String String
  | .text c => .ok c
  | .element tagName attributes children => do
    let inner ← nodesToHTML client children
    match tagName with
    | "i" => transformersI (.element tagName attributes children) inner
    | "img" => transformersImg attributes inner client
    | _ =>
      .ok ("<" ++ tagName ++ ">" ++ inner ++ "</" ++ tagName ++ ">")

/-- Modelled from the spec: the top-level entry point — sibling results
are joined with no separator in document order, and a failing sibling
fails the whole call. -/
def nodesToHTML (client : Option MapiClient) : List DomNode →
    Except String String
  | [] => .ok ""
  | n :: ns => do
    let s ← nodeToHTML client n
    let rest ← nodesToHTML client ns
    pure (s ++ rest)

end

mutual

/-- Whether a tree contains an img element whose `src` attribute is
absent. -/
def hasMissingSrcImg : DomNode → Bool
  | .text _ => false
  | .element tagName attributes children =>
    (tagName == "img" && (getAttr attributes "src").isNone)
      || hasMissingSrcImgList children

/-- Whether a sibling sequence contains an img element with no `src`. -/
def hasMissingSrcImgList : List DomNode → Bool
  | [] => false
  | n :: ns => hasMissingSrcImg n || hasMissingSrcImgList ns

end

/-- C2: an img transformer invocation on a node whose `src` attribute is
absent fails immediately with the missing-source error and produces no
fallback output, and this failure is not locally recoverable: a traversal
of any fragment containing such a node aborts with an error instead of
producing output. -/
theorem missing_src_rejects_and_aborts (c : MapiClient)
    (attributes : List (String × Option String)) (childrenStr : String)
    (h : getAttr attributes "src" = none) :
    transformersImg attributes childrenStr (some c)
        = .error "Invalid IMG tag: no src attribute."
    ∧ ∀ (client : Option MapiClient) (ns : List DomNode),
        hasMissingSrcImgList ns = true →
        ∃ e, nodesToHTML client ns = .error e := by
  constructor
  · simp [transformersImg, h, jsTruthy]
  · intro client
    refine domNodeList_ind
      (P := fun m => hasMissingSrcImg m = true →
        ∃ e, nodeToHTML client m = .error e)
      (Q := fun ms => hasMissingSrcImgList ms = true →
        ∃ e, nodesToHTML client ms = .error e)
      ?_ ?_ ?_ ?_
    · intro s hs
      simp [hasMissingSrcImg] at hs
    · intro t a cs ihQ hbad
      rcases hchild : nodesToHTML client cs with e | inner
      · exact ⟨e, by simp only [nodeToHTML]; rw [hchild]; rfl⟩
      · simp only [hasMissingSrcImg, Bool.or_eq_true] at hbad
        rcases hbad with hself | hrest
        · simp only [Bool.and_eq_true, beq_iff_eq] at hself
          obtain ⟨ht, hsrc⟩ := hself
          subst ht
          rcases client with _ | c'
          · exact ⟨"Client is not provided",
              by simp only [nodeToHTML]; rw [hchild]; rfl⟩
          · refine ⟨"Invalid IMG tag: no src attribute.", ?_⟩
            have hs : getAttr a "src" = none := Option.isNone_iff_eq_none.1 hsrc
            simp only [nodeToHTML]
            rw [hchild]
            show transformersImg a inner (some c')
              = Except.error "Invalid IMG tag: no src attribute."
            simp [transformersImg, hs, jsTruthy]
        · obtain ⟨e, he⟩ := ihQ hrest
          rw [hchild] at he
          cases he
    · intro hbad
      simp [hasMissingSrcImgList] at hbad
    · intro m ms ihP ihQ hbad
      simp only [hasMissingSrcImgList, Bool.or_eq_true] at hbad
      rcases hnode : nodeToHTML client m with e | s
      · exact ⟨e, by simp only [nodesToHTML]; rw [hnode]; rfl⟩
      · rcases hbad with hm | hms
        · obtain ⟨e, he⟩ := ihP hm
          rw [hnode] at he
          cases he
        · obtain ⟨e, he⟩ := ihQ hms
          exact ⟨e, by simp only [nodesToHTML]; rw [hnode, he]; rfl⟩

/-- A mock management client whose upload always succeeds with the asset
identifier `abc123`. -/
def mockClient : MapiClient :=
  { uploadAssetFromUrl := fun _ => .ok "abc123" }

/-- Witness for C2: the concrete img node with no attributes at all is
rejected with the missing-source message, and a one-node fragment holding
it makes the whole traversal fail. -/
theorem missing_src_rejects_and_aborts_witness :
    transformersImg [("alt", some "robot")] "" (some mockClient)
        = .error "Invalid IMG tag: no src attribute."
    ∧ ∃ e, nodesToHTML (some mockClient) [.element "img" [] []]
        = .error e := by
  have h := missing_src_rejects_and_aborts mockClient [("alt", some "robot")]
    "" rfl
  exact ⟨h.1, h.2 (some mockClient) [.element "img" [] []] rfl⟩

/-- C3: for an img node with a (truthy) `src` attribute, when the storage
client's upload succeeds the transformer resolves to exactly the figure
marker — tag figure, the single attribute data-asset-id, no children —
embedding the identifier the upload returned. -/
theorem img_success_returns_figure (c : MapiClient)
    (attributes : List (String × Option String))
    (childrenStr u assetId : String)
    (hsrc : getAttr attributes "src" = some u) (hne : ¬ u = "")
    (hup : c.uploadAssetFromUrl (uploadAssetRequestFor attributes u)
        = .ok assetId) :
    transformersImg attributes childrenStr (some c)
      = .ok ("<figure data-asset-id=\"" ++ assetId ++ "\"></figure>") := by
  simp [transformersImg, hsrc, jsTruthy, jsToString, hne, hup]

/-- Witness for C3: the specification's own scenario — a mock client
whose upload returns `abc123` turns `<img src="http://x/y/pic.png">` into
exactly `<figure data-asset-id="abc123"></figure>`. -/
theorem img_success_returns_figure_witness :
    mockClient.uploadAssetFromUrl
        (uploadAssetRequestFor [("src", some "http://x/y/pic.png")]
          "http://x/y/pic.png") = .ok "abc123"
    ∧ transformersImg [("src", some "http://x/y/pic.png")] ""
        (some mockClient)
      = .ok "<figure data-asset-id=\"abc123\"></figure>" := by
  have h := img_success_returns_figure mockClient
    [("src", some "http://x/y/pic.png")] "" "http://x/y/pic.png" "abc123"
    rfl (by decide) rfl
  exact ⟨rfl, h⟩

/-- C10: the registered transformer for tag `i` always wraps the resolved
children string in an em tag, discarding the original tag name and every
attribute of the node — even allow-listed ones such as title: the result
does not depend on the attribute mapping at all. -/
theorem i_transformer_discards_node (client : Option MapiClient)
    (attributes : List (String × Option String)) (children : List DomNode)
    (inner : String)
    (h : nodesToHTML client children = .ok inner) :
    nodeToHTML client (.element "i" attributes children)
      = .ok ("<em>" ++ inner ++ "</em>") := by
  simp only [nodeToHTML]
  rw [h]
  rfl

/-- Witness for C10: an i element carrying the allow-listed title
attribute still transforms to a bare em wrapper. -/
theorem i_transformer_discards_node_witness :
    nodeToHTML (some mockClient)
        (.element "i" [("title", some "x")] [.text "hi"])
      = .ok ("<em>" ++ "hi" ++ "</em>") :=
  i_transformer_discards_node (some mockClient) [("title", some "x")]
    [.text "hi"] "hi" rfl

/-- Modelled from the spec: the completion events of the concurrently
scheduled sibling transformations — `values` lists the results in
document order, `order` lists the sibling indices in the order their
asynchronous work happens to complete, and each completion delivers its
index together with its result. -/
def completionEvents (values : List String) (order : List Nat) :
    List (Nat × String) :=
  order.map (fun i => (i, values.getD i ""))

/-- Modelled from the spec: the engine stores each completed result at
its original sibling index and reads the slots back in document order,
never in completion order. -/
def assembleByIndex (n : Nat) (events : List (Nat × String)) :
    List String :=
  (List.range n).map
    (fun i => (((events.find? (fun p => p.1 == i)).map (fun p => p.2)).getD ""))

/-- Modelled from the spec: the engine's joined output for one sibling
sequence under a given completion order. -/
def joinedInDocumentOrder (values : List String) (order : List Nat) :
    String :=
  jsJoin "" (assembleByIndex values.length (completionEvents values order))

/-- Looking up an index that completed somewhere in the event list finds
exactly that sibling's result. -/
theorem completionEvents_find (values : List String) (order : List Nat)
    (i : Nat) (h : i ∈ order) :
    (completionEvents values order).find? (fun p => p.1 == i)
      = some (i, values.getD i "") := by
  induction order with
  | nil => cases h
  | cons j js ih =>
    by_cases hj : j = i
    · subst hj
      exact List.find?_cons_of_pos _ (by simp)
    · have hji : (j == i) = false := by simpa using hj
      have hmem : i ∈ js := by
        rcases List.mem_cons.1 h with h1 | h2
        · exact absurd h1.symm hj
        · exact h2
      have hrest := ih hmem
      simp only [completionEvents, List.map_cons, List.find?_cons, hji]
        at hrest ⊢
      exact hrest

/-- Reading a list back through positional lookups over its index range
recovers the list. -/
theorem range_map_getD (xs : List String) :
    (List.range xs.length).map (fun i => xs.getD i "") = xs := by
  induction xs with
  | nil => rfl
  | cons x xs ih =>
    rw [List.length_cons, List.range_succ_eq_map, List.map_cons,
      List.map_map]
    simp only [Function.comp_def, List.getD_cons_zero, List.getD_cons_succ]
    rw [ih]

/-- C9: for any completion order of the siblings' asynchronous work —
any permutation of the sibling indices — the engine's assembled result
list equals the document-order result list, so the joined output equals
the in-order join: for siblings A before B, A's contribution always
precedes B's, and concurrency is never observable in output ordering. -/
theorem sibling_output_order_preserved (values : List String)
    (order : List Nat) (h : order.Perm (List.range values.length)) :
    assembleByIndex values.length (completionEvents values order) = values
    ∧ joinedInDocumentOrder values order = jsJoin "" values := by
  have hassemble :
      assembleByIndex values.length (completionEvents values order)
        = values := by
    unfold assembleByIndex
    have hcong : ∀ i ∈ List.range values.length,
        (((completionEvents values order).find?
            (fun p => p.1 == i)).map (fun p => p.2)).getD ""
          = values.getD i "" := by
      intro i hi
      rw [completionEvents_find values order i (h.mem_iff.2 hi)]
      rfl
    rw [List.map_congr_left hcong, range_map_getD]
  refine ⟨hassemble, ?_⟩
  unfold joinedInDocumentOrder
  rw [hassemble]

/-- Witness for C9: two siblings completing in reverse order still join
as AB. -/
theorem sibling_output_order_preserved_witness :
    List.Perm [1, 0] (List.range 2)
    ∧ joinedInDocumentOrder ["A", "B"] [1, 0] = "AB" := by
  refine ⟨by decide, ?_⟩
  have h := (sibling_output_order_preserved ["A", "B"] [1, 0] (by decide)).2
  rw [h]
  rfl

/-- Modelled from the claim's words: the final segment of the URL path —
the last slash-separated component of the pathname — or the synthesized
placeholder name when the URL has no (non-empty) final path segment. -/
def finalSegmentOrDefault (pathname : String) : String :=
  match (jsSplit pathname '/').getLast? with
  | none => "unknown-file"
  | some s => if s = "" then "unknown-file" else s

/-- C8: on the success path the binary upload request hands the storage
client a filename that is the final segment of the URL path (placeholder
`unknown-file` when there is none) and a content type taken from the
fetch response's `content-type` header (generic octet-stream default when
the header is absent); and given a successful fetch and URL parse, the
img pipeline really passes exactly this request to the storage client's
upload call, feeding the returned identifier into the asset
registration. -/
theorem upload_request_derivation (resp : FetchResponse)
    (pathname : String) :
    (uploadBinaryRequestFor resp pathname).filename
        = finalSegmentOrDefault pathname
    ∧ (resp.contentType = none →
        (uploadBinaryRequestFor resp pathname).contentType
          = "application/octet-stream")
    ∧ (∀ s, resp.contentType = some s → ¬ s = "" →
        (uploadBinaryRequestFor resp pathname).contentType = s)
    ∧ ∀ (env : Env000) (u : String),
        env.fetch u = .ok resp → env.urlPathname u = .ok pathname →
        imgTry env u
          = (env.uploadBinaryFile (uploadBinaryRequestFor resp pathname)).bind
              (fun uploadId =>
                (env.addAsset
                  { fileReferenceId := uploadId
                  , title := (uploadBinaryRequestFor resp pathname).filename
                  , description := "Auto-generated asset"
                  }).bind
                  (fun assetId =>
                    Except.ok
                      ("<figure data-asset-id=\"" ++ assetId
                        ++ "\"></figure>"))) := by
  refine ⟨?_, ?_, ?_, ?_⟩
  · unfold uploadBinaryRequestFor finalSegmentOrDefault jsOr jsPop
    rcases hl : (jsSplit pathname '/').getLast? with _ | s
    · rfl
    · by_cases hs : s = ""
      · subst hs
        simp
      · simp [hs]
  · intro hct
    unfold uploadBinaryRequestFor
    rw [hct]
    rfl
  · intro s hct hs
    unfold uploadBinaryRequestFor
    rw [hct]
    simp [jsOr, hs]
  · intro env u hfetch hurl
    unfold imgTry
    rw [hfetch, hurl]
    rfl

/-- Witness for C8 at a concrete response and pathname: no content-type
header and path `/y/pic.png` give filename `pic.png` and the generic
octet-stream content type. -/
theorem upload_request_derivation_witness :
    (uploadBinaryRequestFor { data := [7], contentType := none }
        "/y/pic.png").filename = "pic.png"
    ∧ (uploadBinaryRequestFor { data := [7], contentType := none }
        "/y/pic.png").contentType = "application/octet-stream" := by
  have h := upload_request_derivation
    { data := [7], contentType := none } "/y/pic.png"
  refine ⟨h.1.trans (by decide), h.2.1 rfl⟩

/-- In the two-step variant (`transformNodeToMapiRichText`) an img
element whose `src` attribute is absent is not treated as a resource node
at all: the guard falls through to the default branch and the tag is
re-emitted around its children — no error is signalled. -/
theorem img_without_src_reemitted_in_two_step_variant (env : Env000)
    (attributes : List (String × Option String)) (children : List DomNode)
    (items : List String) (h : getAttr attributes "src" = none) :
    transformNodeToMapiRichText env (.element "img" attributes children)
        items
      = ([ "<" ++ "img" ++ " " ++ serializeKnownAttributes attributes ++ ">"
            ++ jsJoin "" items ++ "</" ++ "img" ++ ">" ], []) := by
  simp [transformNodeToMapiRichText, h, jsTruthy]

/-- In the two-step variant the success-path figure marker embeds the
identifier returned by the asset-registration (second) call, not the one
returned by the byte-upload (first) call. -/
theorem imgTry_success_embeds_registration_id (env : Env000)
    (u uploadId assetId : String) (resp : FetchResponse)
    (pathname : String)
    (hfetch : env.fetch u = .ok resp)
    (hurl : env.urlPathname u = .ok pathname)
    (hup : env.uploadBinaryFile (uploadBinaryRequestFor resp pathname)
        = .ok uploadId)
    (hreg : env.addAsset
        { fileReferenceId := uploadId
        , title := (uploadBinaryRequestFor resp pathname).filename
        , description := "Auto-generated asset"
        } = .ok assetId) :
    imgTry env u
      = .ok ("<figure data-asset-id=\"" ++ assetId ++ "\"></figure>") := by
  unfold imgTry
  rw [hfetch, hurl]
  show (env.uploadBinaryFile (uploadBinaryRequestFor resp pathname)).bind _
      = _
  rw [hup]
  show (env.addAsset
      { fileReferenceId := uploadId
      , title := (uploadBinaryRequestFor resp pathname).filename
      , description := "Auto-generated asset"
      }).bind _ = _
  rw [hreg]
  rfl

/-- A closed instance of the two preceding observations: with distinct
mock identifiers for the two storage calls, the figure embeds the
registration identifier. -/
theorem imgTry_success_embeds_registration_id_instance :
    imgTry
        { fetch := fun _ => .ok { data := [7], contentType := none }
        , urlPathname := fun _ => .ok "/y/pic.png"
        , uploadBinaryFile := fun _ => .ok "upload-ref-1"
        , addAsset := fun _ => .ok "asset-9"
        } "http://x/y/pic.png"
      = .ok ("<figure data-asset-id=\"" ++ "asset-9" ++ "\"></figure>") :=
  imgTry_success_embeds_registration_id _ "http://x/y/pic.png"
    "upload-ref-1" "asset-9" { data := [7], contentType := none }
    "/y/pic.png" rfl rfl rfl rfl
